import Mathlib

/-!
Shallow embedding of `asrel.py` (CAIDA AS-relationship database loader).

Lines are modelled as `List Char`.  The Python regular expressions are
embedded as explicit matching functions, Python's `str.strip`, `str.split`
and `int` as explicit functions on character lists, the `dict` of pairs as
an association list whose insertion removes any previous binding for the
key, and Python's fatal exceptions (`AssertionError`, `ValueError`,
`TypeError`, `IndexError`) as an error type threaded through `Except`.
-/

/-- The whitespace characters recognised by Python's `str.strip`, `str.split()`
and the regex class `\s` (ASCII). -/
def pyIsSpace (c : Char) : Bool :=
  c = ' ' || c = '\t' || c = '\n' || c = '\r' || c = '\x0b' || c = '\x0c'

/-- Python `line.strip()`: remove leading and trailing whitespace. -/
def pyStrip (s : List Char) : List Char :=
  ((s.dropWhile pyIsSpace).reverse.dropWhile pyIsSpace).reverse

/-- Value of a (nonempty, all-digit) character list as a natural number;
models Python `int()` on the strings matched by `\d+`. -/
def digitsToNat (s : List Char) : Nat :=
  s.foldl (fun n c => 10 * n + (c.toNat - 48)) 0

/-- Python `int(s)` on a stripped string: optional sign followed by a
nonempty run of digits; `none` models a `ValueError`. -/
def pyIntCore (s : List Char) : Option Int :=
  match s with
  | [] => none
  | c :: rest =>
    if c = '-' then
      if !rest.isEmpty && rest.all Char.isDigit then
        some (-(digitsToNat rest : Int))
      else none
    else if c = '+' then
      if !rest.isEmpty && rest.all Char.isDigit then
        some (digitsToNat rest)
      else none
    else if (c :: rest).all Char.isDigit then
      some (digitsToNat (c :: rest))
    else none

/-- Python `int(s)`: surrounding whitespace is ignored. -/
def pyInt (s : List Char) : Option Int :=
  pyIntCore (pyStrip s)

/-- If `pat` is an initial segment of `s`, return the remainder of `s`;
models `re.match` against a pattern that is a literal followed by `(.*)$`. -/
def dropPfx : List Char → List Char → Option (List Char)
  | [], s => some s
  | _ :: _, [] => none
  | p :: ps, c :: cs => if c = p then dropPfx ps cs else none

/-- Python `s.split('|')` (empty fields are kept). -/
def splitPipeAux : List Char → List Char → List (List Char)
  | [], acc => [acc.reverse]
  | c :: cs, acc =>
    if c = '|' then acc.reverse :: splitPipeAux cs []
    else splitPipeAux cs (c :: acc)

/-- Python `s.split('|')`. -/
def splitPipe (s : List Char) : List (List Char) :=
  splitPipeAux s []

/-- Python `s.split()` with no argument: maximal runs of non-whitespace. -/
def pyWordsAux : List Char → List Char → List (List Char)
  | [], acc => if acc.isEmpty then [] else [acc.reverse]
  | c :: cs, acc =>
    if pyIsSpace c then
      if acc.isEmpty then pyWordsAux cs [] else acc.reverse :: pyWordsAux cs []
    else pyWordsAux cs (c :: acc)

/-- Python `s.split()` with no argument. -/
def pyWords (s : List Char) : List (List Char) :=
  pyWordsAux s []

/-- Model of `re.match(r'^# source:(.*)$', line)`: on success, the text
after the literal `# source:` marker. -/
def sourceMatch (line : List Char) : Option (List Char) :=
  dropPfx ("# source:").toList line

/-- Model of `re.match(r'^# inferred clique: ([\d\s]+)$', line)`: on
success, group 1. -/
def cliqueMatch (line : List Char) : Option (List Char) :=
  match dropPfx ("# inferred clique: ").toList line with
  | none => none
  | some rest =>
    if !rest.isEmpty && rest.all (fun c => c.isDigit || pyIsSpace c) then
      some rest
    else none

/-- Model of `re.match(r'^# IXP ASes: ([\d\s]+)$', line)`: on success,
group 1. -/
def ixpMatch (line : List Char) : Option (List Char) :=
  match dropPfx ("# IXP ASes: ").toList line with
  | none => none
  | some rest =>
    if !rest.isEmpty && rest.all (fun c => c.isDigit || pyIsSpace c) then
      some rest
    else none

/-- Model of `_relationship_regexp.match(line)` for
`^(\d+)\|(\d+)\|([0-9-]+)$`:
on success the three groups.  The first two groups are the maximal digit
runs before each `|` (`\d+` cannot span a `|`, so maximal munch is exact),
and the third group must be nonempty and contain only digits and `-`. -/
def relMatch (line : List Char) : Option (List Char × List Char × List Char) :=
  let g1 := line.takeWhile Char.isDigit
  if g1.isEmpty then none
  else
    match line.dropWhile Char.isDigit with
    | '|' :: r2 =>
      let g2 := r2.takeWhile Char.isDigit
      if g2.isEmpty then none
      else
        match r2.dropWhile Char.isDigit with
        | '|' :: g3 =>
          if !g3.isEmpty && g3.all (fun c => c.isDigit || c = '-') then
            some (g1, g2, g3)
          else none
        | _ => none
    | _ => none

/-- The `DataSource` namedtuple. -/
structure DataSource where
  dtype : List Char
  proto : List Char
  date : List Char
  feed : List Char
  collector : List Char
deriving DecidableEq

/-- Python exceptions that abort construction. -/
inductive PyError where
  | assertionError
  | valueError
  | typeError
  | indexError
deriving DecidableEq

/-- An ordered pair of AS numbers, the key type of `pair2rel`. -/
abbrev ASPair := Nat × Nat

/-- Model of `self.pair2rel[(as1, as2)] = rel`: dict insertion, replacing
any previous binding of the same key. -/
def dinsert (k : ASPair) (v : Int) (d : List (ASPair × Int)) :
    List (ASPair × Int) :=
  (k, v) :: d.filter (fun e => decide (e.1 ≠ k))

/-- Dict lookup (`d[k]` / `k in d`). -/
def dlookup (k : ASPair) : List (ASPair × Int) → Option Int
  | [] => none
  | (k', v) :: d => if k' = k then some v else dlookup k d

/-- The four containers of `ASRelationshipsDB`. -/
structure DBState where
  sources : Finset DataSource
  clique : Finset Nat
  ixps : Finset Nat
  pair2rel : List (ASPair × Int)
deriving DecidableEq

/-- The containers as created at the top of `__init__`. -/
def initState : DBState :=
  { sources := ∅, clique := ∅, ixps := ∅, pair2rel := [] }

/-- Constant `P2C = -1`. -/
def P2C : Int := -1
/-- Constant `P2P = 0`. -/
def P2P : Int := 0
/-- Constant `C2P = 1`. -/
def C2P : Int := 1

/-- Model of `set(int(asn) for asn in m.group(1).split())`. -/
def intsOfBody (body : List Char) : Finset Nat :=
  ((pyWords body).map digitsToNat).toFinset

/-- Model of `_parse_source` after the regex matched, with `rest` being
group 1:
build the `DataSource` (a `TypeError` unless the split has exactly five
fields), check the three assertions (`int` may raise a `ValueError`),
then add the record to `self.sources`. -/
def handleSource (st : DBState) (rest : List Char) : Except PyError DBState :=
  match splitPipe rest with
  | [d, p, dt, f, c] =>
    if d = ("topology").toList then
      if p = ("BGP").toList then
        match pyInt dt with
        | some n =>
          if 0 < n then
            .ok { st with sources := insert ⟨d, p, dt, f, c⟩ st.sources }
          else .error .assertionError
        | none => .error .valueError
      else .error .assertionError
    else .error .assertionError
  | _ => .error .typeError

/-- One iteration of the loading loop of `__init__` on an already stripped
line: try the four parsers in order, then `assert line[0] == '#'` (an
`IndexError` when the line is empty). -/
def processStripped (st : DBState) (line : List Char) : Except PyError DBState :=
  match sourceMatch line with
  | some rest => handleSource st rest
  | none =>
    match cliqueMatch line with
    | some body => .ok { st with clique := intsOfBody body }
    | none =>
      match ixpMatch line with
      | some body => .ok { st with ixps := intsOfBody body }
      | none =>
        match relMatch line with
        | some (g1, g2, g3) =>
          match pyInt g3 with
          | some rel =>
            if rel = P2C ∨ rel = P2P then
              .ok { st with
                      pair2rel := dinsert (digitsToNat g1, digitsToNat g2) rel
                        st.pair2rel }
            else .error .assertionError
          | none => .error .valueError
        | none =>
          match line with
          | [] => .error .indexError
          | c :: _ => if c = '#' then .ok st else .error .assertionError

/-- One iteration of the loading loop on a raw line (`line = line.strip()`
first). -/
def processLine (st : DBState) (raw : List Char) : Except PyError DBState :=
  processStripped st (pyStrip raw)

/-- The loading loop over a list of raw lines. -/
def processAll (st : DBState) : List (List Char) → Except PyError DBState
  | [] => .ok st
  | l :: ls =>
    match processLine st l with
    | .ok st' => processAll st' ls
    | .error e => .error e

/-- The four post-load assertions of `__init__`. -/
def checkState (st : DBState) : Bool :=
  decide (st.sources ≠ ∅) && decide (st.clique ≠ ∅) && decide (st.ixps ≠ ∅)
    && decide (1000 < st.pair2rel.length)

/-- Model of `ASRelationshipsDB(fn)`: stream the lines, then check the
post-load invariants. -/
def loadDB (lines : List (List Char)) : Except PyError DBState :=
  match processAll initState lines with
  | .ok st => if checkState st then .ok st else .error .assertionError
  | .error e => .error e

/-- Model of `__getitem__`: direct hit, else sign-flipped reverse hit, else a
`KeyError` whose message names, in order, the two members of the queried
pair (after the swap, `pair[1]` and `pair[0]` are the original ones). -/
def getitem (st : DBState) (pair : ASPair) : Except ASPair Int :=
  match dlookup pair st.pair2rel with
  | some r => .ok r
  | none =>
    let pair2 : ASPair := (pair.2, pair.1)
    match dlookup pair2 st.pair2rel with
    | some r => .ok (-1 * r)
    | none => .error (pair2.2, pair2.1)

/-- Model of `get(pair, missing=None)`: the strict lookup with the `KeyError`
replaced by the caller-supplied default. -/
def dbGet (st : DBState) (pair : ASPair) (missing : Option Int) : Option Int :=
  match getitem st pair with
  | .ok v => some v
  | .error _ => missing

/-! ### Helper lemmas about the matchers -/

theorem dropPfx_some_iff (p l r : List Char) : dropPfx p l = some r ↔ l = p ++ r := by
  induction p generalizing l with
  | nil => simp [dropPfx]
  | cons p ps ih =>
    cases l with
    | nil => simp [dropPfx]
    | cons c cs =>
      by_cases hc : c = p
      · subst hc; simp [dropPfx, ih]
      · simp [dropPfx, hc, List.cons_eq_cons]

theorem sourceMatch_none_of_head (c : Char) (cs : List Char) (h : c ≠ '#') :
    sourceMatch (c :: cs) = none := by
  simp [sourceMatch, dropPfx, h]

theorem cliqueMatch_none_of_head (c : Char) (cs : List Char) (h : c ≠ '#') :
    cliqueMatch (c :: cs) = none := by
  simp [cliqueMatch, dropPfx, h]

theorem ixpMatch_none_of_head (c : Char) (cs : List Char) (h : c ≠ '#') :
    ixpMatch (c :: cs) = none := by
  simp [ixpMatch, dropPfx, h]

theorem relMatch_head (l g1 g2 g3 : List Char) (h : relMatch l = some (g1, g2, g3)) :
    ∃ c cs, l = c :: cs ∧ c.isDigit := by
  cases l with
  | nil => simp [relMatch] at h
  | cons c cs =>
    refine ⟨c, cs, rfl, ?_⟩
    by_contra hc
    simp [relMatch, List.takeWhile, hc] at h

theorem digit_ne_hash (c : Char) (h : c.isDigit) : c ≠ '#' := by
  intro hc
  subst hc
  simp [Char.isDigit] at h

theorem cliqueMatch_some_shape (l body : List Char) (h : cliqueMatch l = some body) :
    ∃ rest, l = ("# inferred clique: ").toList ++ rest := by
  unfold cliqueMatch at h
  cases hd : dropPfx ("# inferred clique: ").toList l with
  | none => rw [hd] at h; exact absurd h (by simp)
  | some rest => exact ⟨rest, (dropPfx_some_iff _ _ _).mp hd⟩

theorem ixpMatch_some_shape (l body : List Char) (h : ixpMatch l = some body) :
    ∃ rest, l = ("# IXP ASes: ").toList ++ rest := by
  unfold ixpMatch at h
  cases hd : dropPfx ("# IXP ASes: ").toList l with
  | none => rw [hd] at h; exact absurd h (by simp)
  | some rest => exact ⟨rest, (dropPfx_some_iff _ _ _).mp hd⟩

theorem sourceMatch_none_of_clique (l body : List Char) (h : cliqueMatch l = some body) :
    sourceMatch l = none := by
  obtain ⟨rest, rfl⟩ := cliqueMatch_some_shape l body h
  simp [sourceMatch, dropPfx]

theorem sourceMatch_none_of_ixp (l body : List Char) (h : ixpMatch l = some body) :
    sourceMatch l = none := by
  obtain ⟨rest, rfl⟩ := ixpMatch_some_shape l body h
  simp [sourceMatch, dropPfx]

theorem cliqueMatch_none_of_ixp (l body : List Char) (h : ixpMatch l = some body) :
    cliqueMatch l = none := by
  obtain ⟨rest, rfl⟩ := ixpMatch_some_shape l body h
  simp [cliqueMatch, dropPfx]

/-! ### Helper lemmas about `processStripped` -/

theorem processStripped_source (st : DBState) (line rest : List Char)
    (h : sourceMatch line = some rest) :
    processStripped st line = handleSource st rest := by
  simp [processStripped, h]

theorem processStripped_clique (st : DBState) (line body : List Char)
    (h : cliqueMatch line = some body) :
    processStripped st line = .ok { st with clique := intsOfBody body } := by
  simp [processStripped, sourceMatch_none_of_clique line body h, h]

theorem processStripped_ixp (st : DBState) (line body : List Char)
    (h : ixpMatch line = some body) :
    processStripped st line = .ok { st with ixps := intsOfBody body } := by
  simp [processStripped, sourceMatch_none_of_ixp line body h,
    cliqueMatch_none_of_ixp line body h, h]

theorem processStripped_rel (st : DBState) (line g1 g2 g3 : List Char)
    (h : relMatch line = some (g1, g2, g3)) :
    processStripped st line =
      match pyInt g3 with
      | some rel =>
        if rel = P2C ∨ rel = P2P then
          .ok { st with
                  pair2rel := dinsert (digitsToNat g1, digitsToNat g2) rel
                    st.pair2rel }
        else .error .assertionError
      | none => .error .valueError := by
  obtain ⟨c, cs, rfl, hc⟩ := relMatch_head line g1 g2 g3 h
  have hne := digit_ne_hash c hc
  simp [processStripped, sourceMatch_none_of_head c cs hne,
    cliqueMatch_none_of_head c cs hne, ixpMatch_none_of_head c cs hne, h]

theorem processStripped_nomatch (st : DBState) (line : List Char)
    (h1 : sourceMatch line = none) (h2 : cliqueMatch line = none)
    (h3 : ixpMatch line = none) (h4 : relMatch line = none) :
    processStripped st line =
      match line with
      | [] => .error .indexError
      | c :: _ => if c = '#' then .ok st else .error .assertionError := by
  cases line with
  | nil => simp [processStripped, h1, h2, h3, h4]
  | cons c cs => simp [processStripped, h1, h2, h3, h4]

/-! ### Dict lemmas -/

theorem mem_dinsert (e : ASPair × Int) (k : ASPair) (v : Int)
    (d : List (ASPair × Int)) (h : e ∈ dinsert k v d) : e = (k, v) ∨ e ∈ d := by
  simp [dinsert, List.mem_filter] at h
  tauto

theorem dlookup_dinsert_self (k : ASPair) (v : Int) (d : List (ASPair × Int)) :
    dlookup k (dinsert k v d) = some v := by
  simp [dinsert, dlookup]

theorem dlookup_filter_ne (k k' : ASPair) (d : List (ASPair × Int)) (h : k' ≠ k) :
    dlookup k' (d.filter (fun e => !decide (e.1 = k))) = dlookup k' d := by
  induction d with
  | nil => rfl
  | cons a d ih =>
    obtain ⟨ak, av⟩ := a
    by_cases hk : ak = k
    · subst hk
      simp [List.filter, dlookup, Ne.symm h, ih]
    · by_cases hk' : ak = k'
      · subst hk'
        simp [List.filter, dlookup, hk, dlookup, ih]
      · simp [List.filter, dlookup, hk, hk', ih]

theorem dlookup_dinsert_ne (k k' : ASPair) (v : Int) (d : List (ASPair × Int))
    (h : k' ≠ k) : dlookup k' (dinsert k v d) = dlookup k' d := by
  simp [dinsert, dlookup, h, Ne.symm h, dlookup_filter_ne k k' d h]

/-- Every code stored in a pair-to-code mapping is `P2C` or `P2P`. -/
def codesValid (d : List (ASPair × Int)) : Prop :=
  ∀ e ∈ d, e.2 = P2C ∨ e.2 = P2P

instance (d : List (ASPair × Int)) : Decidable (codesValid d) := by
  unfold codesValid; infer_instance

/-! ### Container preservation -/

theorem handleSource_containers (st st' : DBState) (rest : List Char)
    (h : handleSource st rest = .ok st') :
    st'.clique = st.clique ∧ st'.ixps = st.ixps ∧ st'.pair2rel = st.pair2rel := by
  unfold handleSource at h
  repeat' split at h
  all_goals first
    | (cases h; exact ⟨rfl, rfl, rfl⟩)
    | simp at h

theorem processStripped_ok_clique_eq (st st' : DBState) (line : List Char)
    (hok : processStripped st line = .ok st') (h : cliqueMatch line = none) :
    st'.clique = st.clique := by
  cases hs : sourceMatch line with
  | some rest =>
    rw [processStripped_source st line rest hs] at hok
    exact (handleSource_containers st st' rest hok).1
  | none =>
    cases hi : ixpMatch line with
    | some body =>
      rw [processStripped_ixp st line body hi] at hok
      cases hok; rfl
    | none =>
      cases hr : relMatch line with
      | some g =>
        obtain ⟨g1, g2, g3⟩ := g
        rw [processStripped_rel st line g1 g2 g3 hr] at hok
        cases hp : pyInt g3 with
        | some rel =>
          simp only [hp] at hok
          split_ifs at hok
          cases hok; rfl
        | none => simp only [hp] at hok; cases hok
      | none =>
        rw [processStripped_nomatch st line hs h hi hr] at hok
        cases line with
        | nil => cases hok
        | cons c cs =>
          simp only [] at hok
          split_ifs at hok
          cases hok; rfl

theorem processStripped_ok_ixps_eq (st st' : DBState) (line : List Char)
    (hok : processStripped st line = .ok st') (h : ixpMatch line = none) :
    st'.ixps = st.ixps := by
  cases hs : sourceMatch line with
  | some rest =>
    rw [processStripped_source st line rest hs] at hok
    exact (handleSource_containers st st' rest hok).2.1
  | none =>
    cases hc : cliqueMatch line with
    | some body =>
      rw [processStripped_clique st line body hc] at hok
      cases hok; rfl
    | none =>
      cases hr : relMatch line with
      | some g =>
        obtain ⟨g1, g2, g3⟩ := g
        rw [processStripped_rel st line g1 g2 g3 hr] at hok
        cases hp : pyInt g3 with
        | some rel =>
          simp only [hp] at hok
          split_ifs at hok
          cases hok; rfl
        | none => simp only [hp] at hok; cases hok
      | none =>
        rw [processStripped_nomatch st line hs hc h hr] at hok
        cases line with
        | nil => cases hok
        | cons c cs =>
          simp only [] at hok
          split_ifs at hok
          cases hok; rfl

theorem processStripped_ok_codesValid (st st' : DBState) (line : List Char)
    (hok : processStripped st line = .ok st') (h : codesValid st.pair2rel) :
    codesValid st'.pair2rel := by
  cases hs : sourceMatch line with
  | some rest =>
    rw [processStripped_source st line rest hs] at hok
    rw [(handleSource_containers st st' rest hok).2.2]
    exact h
  | none =>
    cases hc : cliqueMatch line with
    | some body =>
      rw [processStripped_clique st line body hc] at hok
      cases hok; exact h
    | none =>
      cases hi : ixpMatch line with
      | some body =>
        rw [processStripped_ixp st line body hi] at hok
        cases hok; exact h
      | none =>
        cases hr : relMatch line with
        | some g =>
          obtain ⟨g1, g2, g3⟩ := g
          rw [processStripped_rel st line g1 g2 g3 hr] at hok
          cases hp : pyInt g3 with
          | some rel =>
            simp only [hp] at hok
            split_ifs at hok with hv
            cases hok
            intro e he
            rcases mem_dinsert e _ _ _ he with rfl | he'
            · exact hv
            · exact h e he'
          | none => simp only [hp] at hok; cases hok
        | none =>
          rw [processStripped_nomatch st line hs hc hi hr] at hok
          cases line with
          | nil => cases hok
          | cons c cs =>
            simp only [] at hok
            split_ifs at hok
            cases hok; exact h

/-! ### Lemmas about `processAll` -/

theorem processAll_append (st : DBState) (xs ys : List (List Char)) :
    processAll st (xs ++ ys) =
      match processAll st xs with
      | .ok st1 => processAll st1 ys
      | .error e => .error e := by
  induction xs generalizing st with
  | nil => simp [processAll]
  | cons l ls ih =>
    simp only [List.cons_append, processAll]
    cases processLine st l with
    | ok st' => exact ih st'
    | error e => rfl

theorem processAll_ok_clique_eq (ls : List (List Char)) (st st' : DBState)
    (hok : processAll st ls = .ok st')
    (h : ∀ l ∈ ls, cliqueMatch (pyStrip l) = none) :
    st'.clique = st.clique := by
  induction ls generalizing st with
  | nil => cases hok; rfl
  | cons l ls ih =>
    unfold processAll at hok
    cases hl : processLine st l with
    | ok st1 =>
      rw [hl] at hok
      rw [ih st1 hok (fun x hx => h x (List.mem_cons_of_mem l hx))]
      exact processStripped_ok_clique_eq st st1 (pyStrip l) hl
        (h l (List.mem_cons_self l ls))
    | error e => rw [hl] at hok; cases hok

theorem processAll_ok_ixps_eq (ls : List (List Char)) (st st' : DBState)
    (hok : processAll st ls = .ok st')
    (h : ∀ l ∈ ls, ixpMatch (pyStrip l) = none) :
    st'.ixps = st.ixps := by
  induction ls generalizing st with
  | nil => cases hok; rfl
  | cons l ls ih =>
    unfold processAll at hok
    cases hl : processLine st l with
    | ok st1 =>
      rw [hl] at hok
      rw [ih st1 hok (fun x hx => h x (List.mem_cons_of_mem l hx))]
      exact processStripped_ok_ixps_eq st st1 (pyStrip l) hl
        (h l (List.mem_cons_self l ls))
    | error e => rw [hl] at hok; cases hok

theorem processAll_ok_codesValid (ls : List (List Char)) (st st' : DBState)
    (hok : processAll st ls = .ok st') (h : codesValid st.pair2rel) :
    codesValid st'.pair2rel := by
  induction ls generalizing st with
  | nil => cases hok; exact h
  | cons l ls ih =>
    unfold processAll at hok
    cases hl : processLine st l with
    | ok st1 =>
      rw [hl] at hok
      exact ih st1 hok (processStripped_ok_codesValid st st1 (pyStrip l) hl h)
    | error e => rw [hl] at hok; cases hok

/-! ### Claim theorems -/

/-- C1, counterexample: after the feed lines `1|2|0` and `2|1|-1`, the pair
(1, 2) is stored with code 0, yet the strict lookup of (2, 1) returns -1,
not -0: the stored reverse entry takes precedence over the sign-flip. -/
theorem symmetry_law_counterexample :
    (processAll initState [("1|2|0").toList, ("2|1|-1").toList]).map
        (fun st => (dlookup (1, 2) st.pair2rel, getitem st (2, 1))) =
      .ok (some 0, .ok (-1)) ∧ (-1 : Int) ≠ -0 :=
  ⟨rfl, by decide⟩

/-- C1 (amended): for every pair (a, b) stored with code r, the strict
lookup of (a, b) returns r; and provided the reversed pair (b, a) is not
itself a key of the mapping, the strict lookup of (b, a) returns -r; in
particular, when r = 0 and (b, a) is not a key, both lookups return 0. -/
theorem symmetry_law (st : DBState) (a b : Nat) (r : Int)
    (hab : dlookup (a, b) st.pair2rel = some r) :
    getitem st (a, b) = .ok r ∧
    (dlookup (b, a) st.pair2rel = none → getitem st (b, a) = .ok (-r)) ∧
    (r = 0 → getitem st (a, b) = .ok 0 ∧
      (dlookup (b, a) st.pair2rel = none → getitem st (b, a) = .ok 0)) := by
  have h1 : getitem st (a, b) = .ok r := by simp [getitem, hab]
  have h2 : dlookup (b, a) st.pair2rel = none → getitem st (b, a) = .ok (-r) := by
    intro hba
    simp [getitem, hba, hab, neg_one_mul]
  refine ⟨h1, h2, fun hr => ?_⟩
  subst hr
  exact ⟨h1, by simpa using h2⟩

/-- Witness for C1 at the single stored pair (1, 1614) with code 0. -/
theorem symmetry_law_witness :
    getitem ⟨∅, ∅, ∅, [((1, 1614), 0)]⟩ (1, 1614) = .ok 0 ∧
    getitem ⟨∅, ∅, ∅, [((1, 1614), 0)]⟩ (1614, 1) = .ok (-0) ∧
    (getitem ⟨∅, ∅, ∅, [((1, 1614), 0)]⟩ (1, 1614) = .ok 0 ∧
      getitem ⟨∅, ∅, ∅, [((1, 1614), 0)]⟩ (1614, 1) = .ok 0) :=
  ⟨(symmetry_law ⟨∅, ∅, ∅, [((1, 1614), 0)]⟩ 1 1614 0 rfl).1,
   (symmetry_law ⟨∅, ∅, ∅, [((1, 1614), 0)]⟩ 1 1614 0 rfl).2.1 rfl,
   (symmetry_law ⟨∅, ∅, ∅, [((1, 1614), 0)]⟩ 1 1614 0 rfl).2.2 rfl |>.1,
   (symmetry_law ⟨∅, ∅, ∅, [((1, 1614), 0)]⟩ 1 1614 0 rfl).2.2 rfl |>.2 rfl⟩

/-- C2: the strict lookup returns the stored code of (queryFrom, queryTo)
when that ordered pair is a key (this branch takes precedence), and
otherwise returns the negation of the stored code of (queryTo, queryFrom)
when that pair is a key. -/
theorem strict_lookup_algorithm (st : DBState) (f t : Nat) (r : Int) :
    (dlookup (f, t) st.pair2rel = some r → getitem st (f, t) = .ok r) ∧
    (dlookup (f, t) st.pair2rel = none → dlookup (t, f) st.pair2rel = some r →
      getitem st (f, t) = .ok (-r)) := by
  constructor
  · intro h
    simp [getitem, h]
  · intro h1 h2
    simp [getitem, h1, h2, neg_one_mul]

/-- Witness for C2: a direct hit returns the stored code, a reverse hit
returns its negation. -/
theorem strict_lookup_algorithm_witness :
    getitem ⟨∅, ∅, ∅, [((1, 2), -1)]⟩ (1, 2) = .ok (-1) ∧
    getitem ⟨∅, ∅, ∅, [((2, 1), -1)]⟩ (1, 2) = .ok (-(-1)) :=
  ⟨(strict_lookup_algorithm ⟨∅, ∅, ∅, [((1, 2), -1)]⟩ 1 2 (-1)).1 rfl,
   (strict_lookup_algorithm ⟨∅, ∅, ∅, [((2, 1), -1)]⟩ 1 2 (-1)).2 rfl rfl⟩

/-- C3: for a pair present in neither order, the strict lookup reports a
not-found condition naming the queried pair, and the tolerant lookup
returns exactly the caller-supplied default (it is a total function, so it
never fails). -/
theorem miss_behavior (st : DBState) (f t : Nat) (missing : Option Int)
    (h1 : dlookup (f, t) st.pair2rel = none)
    (h2 : dlookup (t, f) st.pair2rel = none) :
    getitem st (f, t) = .error (f, t) ∧ dbGet st (f, t) missing = missing := by
  have hg : getitem st (f, t) = .error (f, t) := by simp [getitem, h1, h2]
  exact ⟨hg, by simp [dbGet, hg]⟩

/-- Witness for C3 at the empty table and the pair (999999, 999998). -/
theorem miss_behavior_witness :
    getitem initState (999999, 999998) = .error (999999, 999998) ∧
    dbGet initState (999999, 999998) none = none :=
  miss_behavior initState 999999 999998 none rfl rfl

/-- C4: processing a line preserves the invariant that every stored code is
P2C (-1) or P2P (0); the table obtained from any fully consumed stream
satisfies it; and a relationship line whose code field is outside {-1, 0}
is a fatal parse error (an assertion failure when the field is an integer,
a value error when it is not). -/
theorem stored_code_invariant :
    (∀ st st' line, codesValid st.pair2rel → processLine st line = .ok st' →
        codesValid st'.pair2rel) ∧
    (∀ lines st, processAll initState lines = .ok st → codesValid st.pair2rel) ∧
    (∀ st line g1 g2 g3 rel, relMatch (pyStrip line) = some (g1, g2, g3) →
        pyInt g3 = some rel → ¬(rel = P2C ∨ rel = P2P) →
        processLine st line = .error .assertionError) ∧
    (∀ st line g1 g2 g3, relMatch (pyStrip line) = some (g1, g2, g3) →
        pyInt g3 = none → processLine st line = .error .valueError) := by
  refine ⟨?_, ?_, ?_, ?_⟩
  · intro st st' line h hok
    exact processStripped_ok_codesValid st st' (pyStrip line) hok h
  · intro lines st hok
    exact processAll_ok_codesValid lines initState st hok (by intro e he; cases he)
  · intro st line g1 g2 g3 rel hm hp hv
    show processStripped st (pyStrip line) = _
    rw [processStripped_rel st (pyStrip line) g1 g2 g3 hm]
    simp only [hp]
    rw [if_neg hv]
  · intro st line g1 g2 g3 hm hp
    show processStripped st (pyStrip line) = _
    rw [processStripped_rel st (pyStrip line) g1 g2 g3 hm]
    simp only [hp]

/-- Witness for C4: the invariant after one line and after a two-line
stream, and the two fatal shapes `1|2|5` and `1|2|1-2`. -/
theorem stored_code_invariant_witness :
    codesValid ((⟨∅, ∅, ∅, [((1, 2), -1)]⟩ : DBState).pair2rel) ∧
    codesValid ((⟨∅, ∅, ∅, [((10, 20), 0), ((1, 2), -1)]⟩ : DBState).pair2rel) ∧
    processLine initState ("1|2|5").toList = .error .assertionError ∧
    processLine initState ("1|2|1-2").toList = .error .valueError :=
  ⟨stored_code_invariant.1 initState ⟨∅, ∅, ∅, [((1, 2), -1)]⟩ ("1|2|-1").toList
      (by intro e he; cases he) rfl,
   stored_code_invariant.2.1 [("1|2|-1").toList, ("10|20|0").toList]
      ⟨∅, ∅, ∅, [((10, 20), 0), ((1, 2), -1)]⟩ rfl,
   stored_code_invariant.2.2.1 initState ("1|2|5").toList _ _ _ 5 rfl rfl (by decide),
   stored_code_invariant.2.2.2 initState ("1|2|1-2").toList _ _ _ rfl rfl⟩

/-- C5: construction succeeds returning a table exactly when consuming the
stream succeeds and the resulting table has nonempty provenance, clique and
exchange-point sets and strictly more than 1000 relationship entries;
otherwise it fails fatally. -/
theorem post_load_invariant_check (lines : List (List Char)) (st : DBState) :
    loadDB lines = .ok st ↔
      (processAll initState lines = .ok st ∧ st.sources ≠ ∅ ∧ st.clique ≠ ∅ ∧
        st.ixps ≠ ∅ ∧ 1000 < st.pair2rel.length) := by
  unfold loadDB
  cases h : processAll initState lines with
  | error e => simp [h]
  | ok st1 =>
    simp only [h]
    constructor
    · intro h'
      split_ifs at h' with hc
      · cases h'
        unfold checkState at hc
        simp only [Bool.and_eq_true, decide_eq_true_eq] at hc
        exact ⟨rfl, hc.1.1.1, hc.1.1.2, hc.1.2, hc.2⟩
    · rintro ⟨he, h1, h2, h3, h4⟩
      cases he
      simp [checkState, h1, h2, h3, h4]

/-- C6: a matching relationship line with a valid code inserts the code
keyed by the ordered pair (first field, second field) exactly as read; the
new mapping answers that key with the new code (overwriting any prior
entry) and answers every other key, the reversed pair included, as
before. -/
theorem ordered_storage (st : DBState) (line g1 g2 g3 : List Char) (rel : Int)
    (hm : relMatch (pyStrip line) = some (g1, g2, g3))
    (hp : pyInt g3 = some rel) (hv : rel = P2C ∨ rel = P2P) :
    processLine st line =
      .ok { st with
              pair2rel := dinsert (digitsToNat g1, digitsToNat g2) rel
                st.pair2rel } ∧
    dlookup (digitsToNat g1, digitsToNat g2)
        (dinsert (digitsToNat g1, digitsToNat g2) rel st.pair2rel) = some rel ∧
    (∀ k, k ≠ (digitsToNat g1, digitsToNat g2) →
      dlookup k (dinsert (digitsToNat g1, digitsToNat g2) rel st.pair2rel) =
        dlookup k st.pair2rel) := by
  refine ⟨?_, dlookup_dinsert_self _ _ _, fun k hk => dlookup_dinsert_ne _ k _ _ hk⟩
  show processStripped st (pyStrip line) = _
  rw [processStripped_rel st (pyStrip line) g1 g2 g3 hm]
  simp only [hp]
  rw [if_pos hv]

/-- Witness for C6: the line `3|4|-1` over a table already holding entries
for both (3, 4) and (4, 3): the entry for (3, 4) is overwritten and the
entry for the reversed pair (4, 3) is untouched. -/
theorem ordered_storage_witness :
    processLine ⟨∅, ∅, ∅, [((3, 4), 0), ((4, 3), 1)]⟩ ("3|4|-1").toList =
      .ok ⟨∅, ∅, ∅, [((3, 4), -1), ((4, 3), 1)]⟩ ∧
    dlookup (3, 4) (dinsert (3, 4) (-1) [((3, 4), 0), ((4, 3), 1)]) = some (-1) ∧
    dlookup (4, 3) (dinsert (3, 4) (-1) [((3, 4), 0), ((4, 3), 1)]) =
      dlookup (4, 3) [((3, 4), 0), ((4, 3), 1)] :=
  ⟨(ordered_storage ⟨∅, ∅, ∅, [((3, 4), 0), ((4, 3), 1)]⟩ ("3|4|-1").toList
      _ _ _ (-1) rfl rfl (by decide)).1,
   (ordered_storage ⟨∅, ∅, ∅, [((3, 4), 0), ((4, 3), 1)]⟩ ("3|4|-1").toList
      _ _ _ (-1) rfl rfl (by decide)).2.1,
   (ordered_storage ⟨∅, ∅, ∅, [((3, 4), 0), ((4, 3), 1)]⟩ ("3|4|-1").toList
      _ _ _ (-1) rfl rfl (by decide)).2.2 (4, 3) (by decide)⟩

/-- C8: on a line matching the provenance shape (the `# source:` marker
followed by a pipe-delimited 5-field record), the data kind must equal
`topology`, the protocol must equal `BGP`, and the date must parse as a
positive integer; violating any of these aborts construction fatally, and
on success the record is added to the provenance set. -/
theorem provenance_validation (st : DBState) (line rest d p dt f c : List Char)
    (hm : sourceMatch (pyStrip line) = some rest)
    (hf : splitPipe rest = [d, p, dt, f, c]) :
    (d = ("topology").toList → p = ("BGP").toList →
      ∀ n, pyInt dt = some n → 0 < n →
        processLine st line =
          .ok { st with sources := insert ⟨d, p, dt, f, c⟩ st.sources }) ∧
    (d ≠ ("topology").toList →
      processLine st line = .error .assertionError) ∧
    (d = ("topology").toList → p ≠ ("BGP").toList →
      processLine st line = .error .assertionError) ∧
    (d = ("topology").toList → p = ("BGP").toList → pyInt dt = none →
      processLine st line = .error .valueError) ∧
    (d = ("topology").toList → p = ("BGP").toList →
      ∀ n, pyInt dt = some n → n ≤ 0 →
        processLine st line = .error .assertionError) := by
  have hps : processLine st line = handleSource st rest :=
    processStripped_source st (pyStrip line) rest hm
  rw [hps]
  unfold handleSource
  refine ⟨?_, ?_, ?_, ?_, ?_⟩
  · intro hd hp' n hn hpos
    simp only [hf]
    rw [if_pos hd, if_pos hp']
    simp only [hn]
    rw [if_pos hpos]
  · intro hd
    simp only [hf]
    rw [if_neg hd]
  · intro hd hp'
    simp only [hf]
    rw [if_pos hd, if_neg hp']
  · intro hd hp' hn
    simp only [hf]
    rw [if_pos hd, if_pos hp']
    simp only [hn]
  · intro hd hp' n hn hnpos
    simp only [hf]
    rw [if_pos hd, if_pos hp']
    simp only [hn]
    rw [if_neg (not_lt.mpr hnpos)]

/-- Witness for C8: a valid provenance line is added; a wrong protocol and
a wrong data kind are fatal. -/
theorem provenance_validation_witness :
    processLine initState ("# source:topology|BGP|20130801|feed|coll").toList =
      .ok { initState with
              sources := insert
                ⟨("topology").toList, ("BGP").toList, ("20130801").toList,
                 ("feed").toList, ("coll").toList⟩ initState.sources } ∧
    processLine initState ("# source:topology|OSPF|1|f|c").toList =
      .error .assertionError ∧
    processLine initState ("# source:topo|BGP|1|f|c").toList =
      .error .assertionError ∧
    processLine initState ("# source:topology|BGP|x|f|c").toList =
      .error .valueError ∧
    processLine initState ("# source:topology|BGP|0|f|c").toList =
      .error .assertionError :=
  ⟨(provenance_validation initState
      ("# source:topology|BGP|20130801|feed|coll").toList
      _ _ _ _ _ _ rfl rfl).1 rfl rfl 20130801 rfl (by decide),
   (provenance_validation initState ("# source:topology|OSPF|1|f|c").toList
      _ _ _ _ _ _ rfl rfl).2.2.1 rfl (by decide),
   (provenance_validation initState ("# source:topo|BGP|1|f|c").toList
      _ _ _ _ _ _ rfl rfl).2.1 (by decide),
   (provenance_validation initState ("# source:topology|BGP|x|f|c").toList
      _ _ _ _ _ _ rfl rfl).2.2.2.1 rfl rfl rfl,
   (provenance_validation initState ("# source:topology|BGP|0|f|c").toList
      _ _ _ _ _ _ rfl rfl).2.2.2.2 rfl rfl 0 rfl (by decide)⟩

/-- C9: a line that matches none of the four shapes is accepted silently
when its first character is the comment marker `#`, and is a fatal
classification error otherwise. -/
theorem comment_fallback (st : DBState) (line : List Char) (c : Char)
    (cs : List Char) (hl : pyStrip line = c :: cs)
    (h1 : sourceMatch (c :: cs) = none) (h2 : cliqueMatch (c :: cs) = none)
    (h3 : ixpMatch (c :: cs) = none) (h4 : relMatch (c :: cs) = none) :
    (c = '#' → processLine st line = .ok st) ∧
    (c ≠ '#' → processLine st line = .error .assertionError) := by
  have hps : processLine st line = processStripped st (c :: cs) := by
    show processStripped st (pyStrip line) = _
    rw [hl]
  rw [hps, processStripped_nomatch st (c :: cs) h1 h2 h3 h4]
  constructor
  · intro hc
    simp [hc]
  · intro hc
    simp [hc]

/-- Witness for C9: an ordinary comment is skipped, a data-shaped line that
matches nothing is fatal. -/
theorem comment_fallback_witness :
    processLine initState ("# foo").toList = .ok initState ∧
    processLine initState ("@bad").toList = .error .assertionError :=
  ⟨(comment_fallback initState ("# foo").toList '#' (" foo").toList
      rfl rfl rfl rfl rfl).1 rfl,
   (comment_fallback initState ("@bad").toList '@' ("bad").toList
      rfl rfl rfl rfl rfl).2 (by decide)⟩

/-- C10: a line that is empty after trimming matches none of the shapes and
aborts fatally with an index error (empty-string indexing), before the
comment-marker assertion is reached; consequently no stream containing
such a line is ever consumed successfully. -/
theorem blank_line_aborts (st : DBState) (line : List Char)
    (h : ∀ ch ∈ line, pyIsSpace ch) :
    processLine st line = .error .indexError ∧
    (∀ st0 pre suf st1, processAll st0 (pre ++ line :: suf) ≠ .ok st1) := by
  have hstrip : pyStrip line = [] := by
    unfold pyStrip
    rw [List.dropWhile_eq_nil_iff.mpr (fun x hx => h x hx)]
    rfl
  have h1 : ∀ st' : DBState, processLine st' line = .error .indexError := by
    intro st'
    show processStripped st' (pyStrip line) = _
    rw [hstrip]
    rfl
  refine ⟨h1 st, ?_⟩
  intro st0 pre suf st1 hok
  rw [processAll_append] at hok
  cases hap : processAll st0 pre with
  | error e => rw [hap] at hok; cases hok
  | ok stx =>
    rw [hap] at hok
    unfold processAll at hok
    rw [h1 stx] at hok
    cases hok

/-- Witness for C10 at a whitespace-only line. -/
theorem blank_line_aborts_witness :
    processLine initState ("   ").toList = .error .indexError ∧
    processAll initState [("   ").toList] ≠ .ok initState :=
  ⟨(blank_line_aborts initState ("   ").toList (by decide)).1,
   (blank_line_aborts initState ("   ").toList (by decide)).2
      initState [] [] initState⟩

/-- C7: a clique line assigns the clique set to exactly the integers listed
on that line, replacing whatever was there (likewise an exchange-point line
for the exchange-point set); consequently, after any successfully consumed
stream, each set equals the contents of the last such line seen. -/
theorem wholesale_replacement :
    (∀ st line body, cliqueMatch (pyStrip line) = some body →
        processLine st line = .ok { st with clique := intsOfBody body }) ∧
    (∀ st line body, ixpMatch (pyStrip line) = some body →
        processLine st line = .ok { st with ixps := intsOfBody body }) ∧
    (∀ st pre line suf body st', cliqueMatch (pyStrip line) = some body →
        (∀ l ∈ suf, cliqueMatch (pyStrip l) = none) →
        processAll st (pre ++ line :: suf) = .ok st' →
        st'.clique = intsOfBody body) ∧
    (∀ st pre line suf body st', ixpMatch (pyStrip line) = some body →
        (∀ l ∈ suf, ixpMatch (pyStrip l) = none) →
        processAll st (pre ++ line :: suf) = .ok st' →
        st'.ixps = intsOfBody body) := by
  have hcl : ∀ st line body, cliqueMatch (pyStrip line) = some body →
      processLine st line = .ok { st with clique := intsOfBody body } :=
    fun st line body h => processStripped_clique st (pyStrip line) body h
  have hix : ∀ st line body, ixpMatch (pyStrip line) = some body →
      processLine st line = .ok { st with ixps := intsOfBody body } :=
    fun st line body h => processStripped_ixp st (pyStrip line) body h
  refine ⟨hcl, hix, ?_, ?_⟩
  · intro st pre line suf body st' hm hsuf hok
    rw [processAll_append] at hok
    cases hap : processAll st pre with
    | error e => rw [hap] at hok; cases hok
    | ok st1 =>
      rw [hap] at hok
      unfold processAll at hok
      simp only [hcl st1 line body hm] at hok
      exact processAll_ok_clique_eq suf _ st' hok hsuf
  · intro st pre line suf body st' hm hsuf hok
    rw [processAll_append] at hok
    cases hap : processAll st pre with
    | error e => rw [hap] at hok; cases hok
    | ok st1 =>
      rw [hap] at hok
      unfold processAll at hok
      simp only [hix st1 line body hm] at hok
      exact processAll_ok_ixps_eq suf _ st' hok hsuf

/-- Witness for C7: a clique (resp. exchange-point) line replaces a
previously nonempty set, and after a three-line stream each set equals the
contents of the last matching line. -/
theorem wholesale_replacement_witness :
    processLine ⟨∅, {99}, {98}, []⟩ ("# inferred clique: 1 2 3").toList =
      .ok ⟨∅, intsOfBody (("1 2 3").toList), {98}, []⟩ ∧
    processLine ⟨∅, {99}, {98}, []⟩ ("# IXP ASes: 4 5").toList =
      .ok ⟨∅, {99}, intsOfBody (("4 5").toList), []⟩ ∧
    (⟨∅, intsOfBody (("1 2").toList), intsOfBody (("5").toList), []⟩
        : DBState).clique = intsOfBody (("1 2").toList) ∧
    (⟨∅, intsOfBody (("1").toList), intsOfBody (("5 6").toList), []⟩
        : DBState).ixps = intsOfBody (("5 6").toList) :=
  ⟨wholesale_replacement.1 ⟨∅, {99}, {98}, []⟩
      ("# inferred clique: 1 2 3").toList (("1 2 3").toList) rfl,
   wholesale_replacement.2.1 ⟨∅, {99}, {98}, []⟩
      ("# IXP ASes: 4 5").toList (("4 5").toList) rfl,
   wholesale_replacement.2.2.1 initState [("# inferred clique: 7").toList]
      ("# inferred clique: 1 2").toList [("# IXP ASes: 5").toList]
      (("1 2").toList)
      ⟨∅, intsOfBody (("1 2").toList), intsOfBody (("5").toList), []⟩
      rfl (by decide) rfl,
   wholesale_replacement.2.2.2 initState [("# IXP ASes: 7").toList]
      ("# IXP ASes: 5 6").toList [("# inferred clique: 1").toList]
      (("5 6").toList)
      ⟨∅, intsOfBody (("1").toList), intsOfBody (("5 6").toList), []⟩
      rfl (by decide) rfl⟩
